import Mathlib

/-!
Shallow embedding of the candidate-ranking core of the recruiter tool:
`app/services/ranking_service.py` (scoring and ranking) and
`app/services/extraction_service.py` (skill extraction).
Python floats are modelled as rationals; Python strings as `String`;
Python dicts as association lists.  The external NLP toolkit is an
abstract collaborator producing tokens and named entities.
-/

namespace Recruiter

/-- Python `s.lower()`: lower-case a string character by character. -/
def lowerStr (s : String) : String := String.mk (s.toList.map Char.toLower)

/-- Test whether the first character list is an initial segment of the second. -/
def leadMatch : List Char → List Char → Bool
  | [], _ => true
  | _ :: _, [] => false
  | a :: as, b :: bs => a == b && leadMatch as bs

/-- Test whether the needle occurs as a contiguous run inside the haystack. -/
def subMatch (needle : List Char) : List Char → Bool
  | [] => leadMatch needle []
  | b :: bs => leadMatch needle (b :: bs) || subMatch needle bs

/-- Python `needle in hay` substring containment on strings. -/
def strContains (hay needle : String) : Bool := subMatch needle.toList hay.toList

/-- Python `" ".join(parts)`. -/
def joinSpace : List String → String
  | [] => ""
  | [s] => s
  | s :: rest => s ++ " " ++ joinSpace rest

/-- `ExtractedData` from `app/core/models.py`. -/
structure ExtractedData where
  raw_text : String
  skills : List String
  education : List String
  experience : Option String
deriving DecidableEq

/-- `CandidateProfile` from `app/core/models.py`; `score_breakdown` is the dict
written by the scorer, kept as an association list. -/
structure CandidateProfile where
  candidate_id : String
  extracted_data : ExtractedData
  score : ℚ := 0
  score_breakdown : List (String × ℚ) := []
deriving DecidableEq

/-- `RankingCriteria` from `app/core/models.py` with its default weights. -/
structure RankingCriteria where
  skills_weight : ℚ := 1 / 2
  experience_weight : ℚ := 3 / 10
  education_weight : ℚ := 1 / 5
  required_skills : List String := []
deriving DecidableEq

/-- `RankingService.calculate_skills_score`. -/
def calculate_skills_score (criteria : RankingCriteria) (skills : List String) : ℚ :=
  if skills = [] then 0
  else
    let required_skills_matched :=
      skills.filter fun skill =>
        (criteria.required_skills.map fun rs => lowerStr rs).contains (lowerStr skill)
    let base_score := min ((skills.length : ℚ) / 10) 1
    let required_bonus := (required_skills_matched.length : ℚ) * (2 / 10)
    min (base_score + required_bonus) 1

/-- `RankingService.calculate_education_score`. -/
def calculate_education_score (education : List String) : ℚ :=
  if education = [] then 0
  else
    let education_text := lowerStr (joinSpace education)
    if ["phd", "doctorate"].any fun term => strContains education_text term then 1
    else if ["master", "msc", "mba"].any fun term => strContains education_text term then 8 / 10
    else if ["bachelor", "b.sc", "undergraduate"].any fun term => strContains education_text term then 6 / 10
    else if ["diploma", "certificate", "ond", "hnd"].any fun term => strContains education_text term then 4 / 10
    else 0

/-- `RankingService.calculate_experience_score`. -/
def calculate_experience_score (experience_text : String) : ℚ :=
  if experience_text = "" then 0
  else
    let text_lower := lowerStr experience_text
    if ["year", "yr", "experience"].any fun term => strContains text_lower term then 7 / 10
    else 0

/-- `RankingService.score_candidate`: computes the breakdown and the weighted
total and writes them onto the profile. -/
def score_candidate (criteria : RankingCriteria) (profile : CandidateProfile) : CandidateProfile :=
  let skills_score := calculate_skills_score criteria profile.extracted_data.skills
  let education_score := calculate_education_score profile.extracted_data.education
  let experience_score := calculate_experience_score (profile.extracted_data.experience.getD "")
  let breakdown := [("skills", skills_score), ("education", education_score),
    ("experience", experience_score)]
  let total_score :=
    skills_score * criteria.skills_weight +
    education_score * criteria.education_weight +
    experience_score * criteria.experience_weight
  { profile with score := total_score, score_breakdown := breakdown }

/-- The comparator realised by Python `sorted(key=lambda x: x.score, reverse=True)`:
keep `a` before `b` whenever `b.score ≤ a.score`. -/
def scoreDescLE (a b : CandidateProfile) : Bool := decide (b.score ≤ a.score)

/-- `RankingService.rank_candidates`: score every profile, then stable-sort by
score descending (Python `sorted` is stable). -/
def rank_candidates (criteria : RankingCriteria) (profiles : List CandidateProfile) :
    List CandidateProfile :=
  List.mergeSort (profiles.map (score_candidate criteria)) scoreDescLE

/-- The fixed skill vocabulary `SKILLS_KEYWORDS` from
`app/services/extraction_service.py`. -/
def SKILLS_KEYWORDS : List String :=
  ["python", "javascript", "java", "html", "css", "react", "node.js",
   "sql", "nosql", "mongodb", "aws", "docker", "kubernetes", "git",
   "machine learning", "data analysis", "project management",
   "digital marketing", "ui/ux", "figma"]

/-- A named entity recognised by the external NLP collaborator. -/
structure Entity where
  text : String
  label : String
deriving DecidableEq

/-- The document produced by the external NLP collaborator on a text:
its word tokens and its named entities. -/
structure Doc where
  tokens : List String
  ents : List Entity
deriving DecidableEq

/-- `ExtractionService.extract_skills`: run the collaborator on the lower-cased
text, collect tokens that are vocabulary members plus lower-cased texts of
organization entities that are vocabulary members, as a set. -/
def extract_skills (nlp : String → Doc) (text : String) : List String :=
  let doc := nlp (lowerStr text)
  let token_found := doc.tokens.filter fun t => SKILLS_KEYWORDS.contains t
  let ent_found :=
    (doc.ents.filter fun e => e.label == "ORG" && SKILLS_KEYWORDS.contains (lowerStr e.text)).map
      fun e => lowerStr e.text
  (token_found ++ ent_found).dedup

example : strContains "hello world" "lo w" = true := by decide
example : strContains "hello" "z" = false := by decide
example : lowerStr "PhD ABC" = "phd abc" := by decide
example : calculate_education_score ["bachelor phd"] = 1 := by decide
example : calculate_experience_score "5 years experience" = 7 / 10 := rfl
example : calculate_skills_score {} [] = 0 := rfl
example : calculate_skills_score {} ["a", "b", "c"] = 3 / 10 := by
  show min (min ((3 : ℚ) / 10) 1 + 0 * (2 / 10)) 1 = 3 / 10
  rw [min_eq_left (by norm_num : (3 : ℚ) / 10 ≤ 1)]
  rw [show ((3 : ℚ) / 10 + 0 * (2 / 10)) = 3 / 10 by ring]
  exact min_eq_left (by norm_num)

/-! Specification-side definitions, written from the spec's words, to be
compared with the definitions translated from the source. -/

/-- The education tiers as the specification words them: tested in strict
descending seniority order, each tier a set of marker terms with its score. -/
def tier_table : List (List String × ℚ) :=
  [(["phd", "doctorate"], 1),
   (["master", "msc", "mba"], 8 / 10),
   (["bachelor", "b.sc", "undergraduate"], 6 / 10),
   (["diploma", "certificate", "ond", "hnd"], 4 / 10)]

/-- Return the score of the first tier whose terms match the text; 0 when no
tier matches. -/
def firstTier (text : String) : List (List String × ℚ) → ℚ
  | [] => 0
  | (terms, sc) :: rest =>
    if terms.any fun term => strContains text term then sc else firstTier text rest

/-- The education score as the specification words it: 0 on an empty list,
otherwise the first matching tier's score over the lower-cased concatenation. -/
def spec_education_score (education : List String) : ℚ :=
  if education = [] then 0 else firstTier (lowerStr (joinSpace education)) tier_table

/-- The fixed experience-indicator words of the specification. -/
def experience_indicators : List String := ["year", "yr", "experience"]

/-- The experience score as the specification words it: 0 for absent or empty
text, 7/10 when the lower-cased text contains an indicator word, else 0. -/
def spec_experience_score : Option String → ℚ
  | none => 0
  | some t =>
    if t = "" then 0
    else if experience_indicators.any fun w => strContains (lowerStr t) w then 7 / 10
    else 0

/-- C1: `calculate_skills_score` is 0 on an empty list and otherwise
`min(min(|skills|/10, 1) + 0.2 * m, 1)` where `m` counts the entries whose
lower-cased form occurs among the lower-cased required skills. -/
theorem skills_score_formula (criteria : RankingCriteria) (skills : List String) :
    calculate_skills_score criteria skills =
      if skills = [] then 0
      else
        min (min ((skills.length : ℚ) / 10) 1 +
          (2 / 10) * ((skills.filter fun s =>
            decide (lowerStr s ∈ criteria.required_skills.map lowerStr)).length : ℚ)) 1 := by
  unfold calculate_skills_score
  by_cases h : skills = []
  · simp [h]
  · simp only [if_neg h]
    have hf : (skills.filter fun skill =>
        (criteria.required_skills.map fun rs => lowerStr rs).contains (lowerStr skill)) =
        skills.filter fun s => decide (lowerStr s ∈ criteria.required_skills.map lowerStr) := by
      apply List.filter_congr
      intro s _
      simp [List.contains, List.elem_eq_mem]
    rw [hf, mul_comm]

/-- C2: `calculate_education_score` is 0 on an empty list and otherwise the
score of the first tier matched in strict descending order; in particular a
text containing both a bachelor term and a doctorate term scores 1. -/
theorem education_score_spec :
    (∀ education, calculate_education_score education = spec_education_score education) ∧
    (∀ education, education ≠ [] →
      strContains (lowerStr (joinSpace education)) "bachelor" = true →
      strContains (lowerStr (joinSpace education)) "phd" = true →
      calculate_education_score education = 1) := by
  constructor
  · intro education
    rfl
  · intro education hne _ hp
    have hany : (["phd", "doctorate"].any fun term =>
        strContains (lowerStr (joinSpace education)) term) = true := by
      simp [hp]
    simp [calculate_education_score, hne, hany]

/-- Witness for C2 at a text containing both a bachelor and a doctorate term. -/
theorem education_score_spec_witness : calculate_education_score ["bachelor phd"] = 1 :=
  education_score_spec.2 ["bachelor phd"] (by decide) (by decide) (by decide)

/-- C3: the total written by `score_candidate` is exactly the weighted sum of
the three criterion scores, with no clamping; with weights not summing to 1
the total can exceed 1. -/
theorem total_score_formula :
    (∀ (criteria : RankingCriteria) (profile : CandidateProfile),
      (score_candidate criteria profile).score =
        calculate_skills_score criteria profile.extracted_data.skills * criteria.skills_weight +
        calculate_education_score profile.extracted_data.education * criteria.education_weight +
        calculate_experience_score (profile.extracted_data.experience.getD "") *
          criteria.experience_weight) ∧
    (∃ (criteria : RankingCriteria) (profile : CandidateProfile),
      1 < (score_candidate criteria profile).score) := by
  constructor
  · intro criteria profile
    rfl
  · refine ⟨{ education_weight := 3 },
      { candidate_id := "x", extracted_data := ⟨"", [], ["phd"], none⟩ }, ?_⟩
    have h : (score_candidate { education_weight := 3 }
        { candidate_id := "x", extracted_data := ⟨"", [], ["phd"], none⟩ }).score =
        0 * (1 / 2) + 1 * 3 + 0 * (3 / 10) := rfl
    rw [h]
    norm_num

/-- C8: `score_candidate` returns the given profile with only its score and
score breakdown replaced; candidate id and extracted data are unchanged. -/
theorem score_candidate_frame (criteria : RankingCriteria) (profile : CandidateProfile) :
    (score_candidate criteria profile).candidate_id = profile.candidate_id ∧
    (score_candidate criteria profile).extracted_data = profile.extracted_data ∧
    score_candidate criteria profile =
      { profile with
          score := (score_candidate criteria profile).score,
          score_breakdown := (score_candidate criteria profile).score_breakdown } :=
  ⟨rfl, rfl, rfl⟩

/-- C9: the experience score is 0 for absent or empty text, 7/10 when the
lower-cased text contains an indicator word (in particular any text containing
"experience"), and 0 otherwise. -/
theorem experience_score_spec :
    (∀ o : Option String, calculate_experience_score (o.getD "") = spec_experience_score o) ∧
    (∀ t : String, strContains (lowerStr t) "experience" = true →
      calculate_experience_score t = 7 / 10) := by
  constructor
  · intro o
    cases o with
    | none => rfl
    | some t => rfl
  · intro t h
    have hne : t ≠ "" := by
      intro he
      subst he
      exact absurd h (by decide)
    have hany : (["year", "yr", "experience"].any fun term =>
        strContains (lowerStr t) term) = true := by
      simp [h]
    simp [calculate_experience_score, hne, hany]

/-- Witness for C9 at a concrete text containing "experience". -/
theorem experience_score_spec_witness :
    calculate_experience_score "5 years of experience" = 7 / 10 :=
  experience_score_spec.2 "5 years of experience" (by decide)

/-- The skills score is never negative. -/
theorem skills_score_nonneg (criteria : RankingCriteria) (skills : List String) :
    0 ≤ calculate_skills_score criteria skills := by
  unfold calculate_skills_score
  by_cases h : skills = []
  · simp [h]
  · simp only [if_neg h]
    refine le_min (add_nonneg (le_min (by positivity) (by norm_num)) (by positivity)) (by norm_num)

/-- The skills score never exceeds 1. -/
theorem skills_score_le_one (criteria : RankingCriteria) (skills : List String) :
    calculate_skills_score criteria skills ≤ 1 := by
  unfold calculate_skills_score
  by_cases h : skills = []
  · simp [h]
  · simp only [if_neg h]
    exact min_le_right _ _

/-- The education score lies between 0 and 1. -/
theorem education_score_bounds (education : List String) :
    0 ≤ calculate_education_score education ∧ calculate_education_score education ≤ 1 := by
  unfold calculate_education_score
  dsimp only
  split_ifs <;> norm_num

/-- The experience score lies between 0 and 1. -/
theorem experience_score_bounds (experience_text : String) :
    0 ≤ calculate_experience_score experience_text ∧
      calculate_experience_score experience_text ≤ 1 := by
  unfold calculate_experience_score
  dsimp only
  split_ifs <;> norm_num

/-- C7: after scoring, the breakdown's keys are exactly skills, education,
experience, and every value lies in [0, 1]. -/
theorem breakdown_keys_range (criteria : RankingCriteria) (profile : CandidateProfile) :
    ((score_candidate criteria profile).score_breakdown.map Prod.fst =
      ["skills", "education", "experience"]) ∧
    (∀ kv ∈ (score_candidate criteria profile).score_breakdown, 0 ≤ kv.2 ∧ kv.2 ≤ 1) := by
  constructor
  · rfl
  · intro kv hkv
    have hb : (score_candidate criteria profile).score_breakdown =
        [("skills", calculate_skills_score criteria profile.extracted_data.skills),
         ("education", calculate_education_score profile.extracted_data.education),
         ("experience",
           calculate_experience_score (profile.extracted_data.experience.getD ""))] := rfl
    rw [hb] at hkv
    simp only [List.mem_cons, List.not_mem_nil, or_false] at hkv
    rcases hkv with h | h | h <;> subst h
    · exact ⟨skills_score_nonneg _ _, skills_score_le_one _ _⟩
    · exact education_score_bounds _
    · exact experience_score_bounds _

/-- Witness for C7 at a concrete criteria and profile. -/
theorem breakdown_keys_range_witness :
    ((score_candidate {}
        { candidate_id := "w", extracted_data := ⟨"", ["python"], ["phd"], none⟩ }).score_breakdown.map
      Prod.fst = ["skills", "education", "experience"]) ∧
    (∀ kv ∈ (score_candidate {}
        { candidate_id := "w", extracted_data := ⟨"", ["python"], ["phd"], none⟩ }).score_breakdown,
      0 ≤ kv.2 ∧ kv.2 ≤ 1) :=
  breakdown_keys_range {} { candidate_id := "w", extracted_data := ⟨"", ["python"], ["phd"], none⟩ }

/-- Every entry of the skill vocabulary is its own lower-casing. -/
theorem vocab_lower : ∀ v ∈ SKILLS_KEYWORDS, lowerStr v = v := by decide

/-- C5: every extracted skill is a lower-case member of the fixed vocabulary,
and the extracted list has no duplicates. -/
theorem extract_skills_vocab_nodup (nlp : String → Doc) (text : String) :
    (∀ s ∈ extract_skills nlp text, s ∈ SKILLS_KEYWORDS ∧ lowerStr s = s) ∧
    (extract_skills nlp text).Nodup := by
  constructor
  · intro s hs
    simp only [extract_skills] at hs
    rw [List.mem_dedup] at hs
    rcases List.mem_append.mp hs with h | h
    · have hp := List.of_mem_filter h
      simp only [List.contains, List.elem_eq_mem, decide_eq_true_eq] at hp
      exact ⟨hp, vocab_lower s hp⟩
    · rcases List.mem_map.mp h with ⟨e, he, rfl⟩
      have hq := List.of_mem_filter he
      rw [Bool.and_eq_true] at hq
      have hm : lowerStr e.text ∈ SKILLS_KEYWORDS := by
        have := hq.2
        simpa [List.contains, List.elem_eq_mem] using this
      exact ⟨hm, vocab_lower _ hm⟩
  · simp only [extract_skills]
    exact List.nodup_dedup _

/-- Witness for C5 at a concrete collaborator output and text. -/
theorem extract_skills_vocab_nodup_witness :
    (∀ s ∈ extract_skills
        (fun _ => ⟨["python", "python", "aws"], [⟨"AWS", "ORG"⟩]⟩) "Python AWS",
      s ∈ SKILLS_KEYWORDS ∧ lowerStr s = s) ∧
    (extract_skills
        (fun _ => ⟨["python", "python", "aws"], [⟨"AWS", "ORG"⟩]⟩) "Python AWS").Nodup :=
  extract_skills_vocab_nodup
    (fun _ => ⟨["python", "python", "aws"], [⟨"AWS", "ORG"⟩]⟩) "Python AWS"

/-- C6: when every token is a single word, a multi-word entry (one containing a
space) reaches the extracted skills only through an organization entity whose
lower-cased text equals it. -/
theorem extract_skills_multiword_entity_only (nlp : String → Doc) (text : String)
    (htok : ∀ t ∈ (nlp (lowerStr text)).tokens, t.toList.contains ' ' = false) :
    ∀ s ∈ extract_skills nlp text, s.toList.contains ' ' = true →
      ∃ e ∈ (nlp (lowerStr text)).ents, e.label = "ORG" ∧ lowerStr e.text = s := by
  intro s hs hsp
  simp only [extract_skills] at hs
  rw [List.mem_dedup] at hs
  rcases List.mem_append.mp hs with h | h
  · have := htok s (List.mem_of_mem_filter h)
    rw [this] at hsp
    exact Bool.noConfusion hsp
  · rcases List.mem_map.mp h with ⟨e, he, rfl⟩
    have hq := List.of_mem_filter he
    rw [Bool.and_eq_true] at hq
    exact ⟨e, List.mem_of_mem_filter he, by simpa using hq.1, rfl⟩

/-- Witness for C6: the two-word vocabulary term present in the text as two
single-word tokens, with no entities, is not among the extracted skills. -/
theorem extract_skills_multiword_entity_only_witness :
    ("machine learning" ∈
      extract_skills (fun _ => ⟨["machine", "learning"], []⟩) "machine learning") = False :=
  eq_false fun hmem =>
    match extract_skills_multiword_entity_only (fun _ => ⟨["machine", "learning"], []⟩)
        "machine learning" (by decide) "machine learning" hmem (by decide) with
    | ⟨e, he, _⟩ => absurd he (List.not_mem_nil e)

/-- The descending comparator is transitive. -/
theorem scoreDescLE_trans :
    ∀ (a b c : CandidateProfile), scoreDescLE a b → scoreDescLE b c → scoreDescLE a c := by
  intro a b c h1 h2
  simp only [scoreDescLE, decide_eq_true_eq] at *
  exact le_trans h2 h1

/-- The descending comparator is total. -/
theorem scoreDescLE_total :
    ∀ (a b : CandidateProfile), scoreDescLE a b || scoreDescLE b a := by
  intro a b
  simp only [scoreDescLE, Bool.or_eq_true, decide_eq_true_eq]
  exact le_total b.score a.score

/-- C4: ranking returns a permutation of the independently scored profiles,
sorted by total score in descending order, and the empty input gives the
empty output. -/
theorem rank_candidates_correct (criteria : RankingCriteria)
    (profiles : List CandidateProfile) :
    (rank_candidates criteria profiles).Perm (profiles.map (score_candidate criteria)) ∧
    List.Pairwise (fun a b => b.score ≤ a.score) (rank_candidates criteria profiles) ∧
    rank_candidates criteria [] = [] := by
  refine ⟨List.mergeSort_perm _ _, ?_, by simp [rank_candidates]⟩
  have hp := List.sorted_mergeSort scoreDescLE_trans scoreDescLE_total
    (profiles.map (score_candidate criteria))
  exact hp.imp fun h => by simpa [scoreDescLE] using h

/-- C10: ranking is stable on ties: two equal-scored profiles appearing in
input order among the scored profiles appear in that same order in the output. -/
theorem rank_candidates_stable_ties (criteria : RankingCriteria)
    (profiles : List CandidateProfile) (a b : CandidateProfile)
    (h : List.Sublist [a, b] (profiles.map (score_candidate criteria)))
    (hs : a.score = b.score) :
    List.Sublist [a, b] (rank_candidates criteria profiles) := by
  unfold rank_candidates
  apply List.sublist_mergeSort scoreDescLE_trans scoreDescLE_total ?_ h
  refine List.pairwise_pair.mpr ?_
  simp only [scoreDescLE, decide_eq_true_eq, hs, le_refl]

/-- Witness for C10: two distinct profiles with equal scores keep their input
order in the ranking. -/
theorem rank_candidates_stable_ties_witness :
    List.Sublist
      [score_candidate {} { candidate_id := "a", extracted_data := ⟨"", [], [], none⟩ },
       score_candidate {} { candidate_id := "b", extracted_data := ⟨"", [], [], none⟩ }]
      (rank_candidates {}
        [{ candidate_id := "a", extracted_data := ⟨"", [], [], none⟩ },
         { candidate_id := "b", extracted_data := ⟨"", [], [], none⟩ }]) :=
  rank_candidates_stable_ties {}
    [{ candidate_id := "a", extracted_data := ⟨"", [], [], none⟩ },
     { candidate_id := "b", extracted_data := ⟨"", [], [], none⟩ }]
    (score_candidate {} { candidate_id := "a", extracted_data := ⟨"", [], [], none⟩ })
    (score_candidate {} { candidate_id := "b", extracted_data := ⟨"", [], [], none⟩ })
    (List.Sublist.refl _) rfl

end Recruiter
